import Mathlib

/-!
Verification of the ta2music pipeline (src/main.py).

The development shallowly embeds the parts of the program the claims are
about: the filename sanitizer, the yt-dlp fetch step, the sqlite dedup
ledger, the TubeArchivist API client's playlist check and title lookup,
the per-file pipeline `process_video`, and the watchdog event handler
`VideoFileHandler._process_file` with its in-flight set.

External effects (filesystem, sqlite, HTTP, subprocess) are modelled as
explicit oracle values passed in, and the side effects the claims talk
about (ledger mutations, external command invocations) are returned as
explicit data.
-/

namespace TaToMusic

/-! ## Filename sanitization (`MusicDownloader._sanitize_filename`) -/

/-- Characters matched by the regex `[<>:"/\\|?*\x00-\x1f]` in
`_sanitize_filename`.  The double quote is written via its code point 34. -/
def invalid_char (c : Char) : Bool :=
  c = '<' || c = '>' || c = ':' || c.toNat = 34 || c = '/' || c = '\\' ||
  c = '|' || c = '?' || c = '*' || c.toNat ≤ 31

/-- Characters removed from both ends by Python's `str.strip(' .')`. -/
def strip_char (c : Char) : Bool := c = ' ' || c = '.'

/-- `re.sub(invalid_chars, '_', filename)`: every illegal character is
replaced by an underscore. -/
def substituteInvalid (l : List Char) : List Char :=
  l.map fun c => if invalid_char c then '_' else c

/-- Python `str.strip(' .')`: remove spaces and dots from both ends. -/
def stripDots (l : List Char) : List Char :=
  ((l.dropWhile strip_char).reverse.dropWhile strip_char).reverse

/-- `if len(sanitized) > 200: sanitized = sanitized[:200]`. -/
def truncate200 (l : List Char) : List Char :=
  if 200 < l.length then l.take 200 else l

/-- Body of `_sanitize_filename` on the character list of the input. -/
def sanitizeChars (l : List Char) : List Char :=
  let s := stripDots (substituteInvalid l)
  let t := truncate200 s
  if t = [] then "untitled".data else t

/-- `MusicDownloader._sanitize_filename`. -/
def _sanitize_filename (s : String) : String :=
  String.mk (sanitizeChars s.data)

/-! ## Python `str.replace` (used for `'%(ext)s' -> 'mp3'`) -/

/-- Does `pat` occur as a leading run of `l`? -/
def matchesAt (pat l : List Char) : Bool :=
  match pat, l with
  | [], _ => true
  | _ :: _, [] => false
  | p :: ps, c :: cs => p = c && matchesAt ps cs

/-- Left-to-right, non-overlapping replacement of `pat` by `rep`, as
Python's `str.replace`.  `fuel` bounds the recursion; since a successful
match consumes at least one character (`pat` is nonempty at every call
site), fuel equal to the length of the scanned list is sufficient. -/
def replaceFuel (pat rep : List Char) : Nat → List Char → List Char
  | _, [] => []
  | 0, l => l
  | fuel + 1, c :: rest =>
    if matchesAt pat (c :: rest) then
      rep ++ replaceFuel pat rep fuel (List.drop pat.length (c :: rest))
    else
      c :: replaceFuel pat rep fuel rest

/-- Python `s.replace(pat, rep)` (for the nonempty patterns used here). -/
def pyReplace (s pat rep : String) : String :=
  if pat.data = [] then s
  else String.mk (replaceFuel pat.data rep.data s.data.length s.data)

/-- Python `str.upper()` (ASCII, which covers the marker comparison). -/
def pyUpper (s : String) : String := String.mk (s.data.map Char.toUpper)

/-- Python `str.lower()` (ASCII, which covers the extension check). -/
def pyLower (s : String) : String := String.mk (s.data.map Char.toLower)

/-- Python `str.startswith(pre)`. -/
def pyStartsWith (s pre : String) : Bool := matchesAt pre.data s.data

/-! ## Paths and video-file detection -/

/-- A filesystem path as the handler sees it: directory part, base name
without extension (`Path.stem`) and the extension with its leading dot
(`Path.suffix`). -/
structure VPath where
  dir : String
  stem : String
  ext : String
deriving DecidableEq

/-- The allow-list in `MusicDownloader._is_video_file`. -/
def video_extensions : List String :=
  [".mp4", ".mkv", ".webm", ".avi", ".mov", ".flv", ".m4v"]

/-- `MusicDownloader._is_video_file`: extension, lower-cased, on the
allow-list. -/
def _is_video_file (p : VPath) : Bool :=
  decide (pyLower p.ext ∈ video_extensions)

/-- `MusicDownloader._extract_video_id`: the stem of the path, or `none`
when the stem is empty. -/
def _extract_video_id (p : VPath) : Option String :=
  if p.stem = "" then none else some p.stem

/-! ## TubeArchivist API client -/

/-- The two title fields of a video-metadata response that the pipeline
reads (`video_info.get('title')`, `video_info.get('video_title')`);
`none` models an absent key. -/
structure VideoInfo where
  title : Option String
  video_title : Option String
deriving DecidableEq

/-- One playlist from `/api/playlist/`: `playlist.get('playlist_name', '')`
and `playlist.get('playlist_id')`, with the empty string standing for a
missing or falsy id (the code tests `if playlist_id:`). -/
structure Playlist where
  playlist_name : String
  playlist_id : String
deriving DecidableEq

/-- The remote service as the three read-only calls the client makes:
the playlist listing, each playlist's member video ids, and per-video
metadata.  A call that failed and was caught is modelled by the defaulted
value the client returns for it (`[]` / `none`). -/
structure ApiModel where
  playlists : List Playlist
  playlistVideos : String → List String
  videoInfo : String → Option VideoInfo

/-- The loop body of `TubeArchivistAPI.is_in_music_playlist`.  Returns the
boolean result together with the list of playlist ids for which
`get_ta_playlist_videos` was called, in order. -/
def is_in_music_playlist_aux (api : ApiModel) (video_id : String) :
    List Playlist → Bool × List String
  | [] => (false, [])
  | pl :: rest =>
    if pyStartsWith (pyUpper pl.playlist_name) "MUSIC" then
      if pl.playlist_id = "" then
        is_in_music_playlist_aux api video_id rest
      else
        if video_id ∈ api.playlistVideos pl.playlist_id then
          (true, [pl.playlist_id])
        else
          let r := is_in_music_playlist_aux api video_id rest
          (r.1, pl.playlist_id :: r.2)
    else
      is_in_music_playlist_aux api video_id rest

/-- `TubeArchivistAPI.is_in_music_playlist`. -/
def is_in_music_playlist (api : ApiModel) (video_id : String) : Bool :=
  (is_in_music_playlist_aux api video_id api.playlists).1

/-- Python's `a or b` on the two optional title strings: the first value
is kept only when it is truthy (present and nonempty). -/
def pyOrStr (a b : Option String) : Option String :=
  match a with
  | some s => if s = "" then b else some s
  | none => b

/-- The title extraction in `process_video`:
`video_info.get('title') or video_info.get('video_title')`, where a failed
metadata lookup (`get_ta_video_info` returned `None`) yields no title. -/
def fetchTitle (info : Option VideoInfo) : Option String :=
  match info with
  | none => none
  | some i => pyOrStr i.title i.video_title

/-! ## Dedup ledger (sqlite table `mp3_downloaded_videos`) -/

/-- The raw sqlite insert in `mark_as_mp3_downloaded`:
`INSERT OR IGNORE` appends the hash unless it is already present;
a storage-layer failure raises (modelled by `Except.error`). -/
def markAttempt (fails : Bool) (ledger : List String) (file_hash : String) :
    Except String (List String) :=
  if fails then Except.error "database error"
  else Except.ok (if file_hash ∈ ledger then ledger else ledger ++ [file_hash])

/-- `MusicDownloader.mark_as_mp3_downloaded`: the insert wrapped in
`try/except` — a storage failure is logged and swallowed, leaving the
ledger unchanged, and nothing is raised to the caller. -/
def mark_as_mp3_downloaded (fails : Bool) (ledger : List String)
    (file_hash : String) : List String :=
  match markAttempt fails ledger file_hash with
  | Except.ok l => l
  | Except.error _ => ledger

/-- `MusicDownloader.is_mp3_downloaded`: membership lookup; a storage
failure is caught and reported as `false`. -/
def is_mp3_downloaded (fails : Bool) (ledger : List String)
    (file_hash : String) : Bool :=
  if fails then false else file_hash ∈ ledger

/-- `MusicDownloader._get_mp3_downloaded_count`: `SELECT COUNT(*)`;
a storage failure is caught and reported as `0`. -/
def _get_mp3_downloaded_count (fails : Bool) (ledger : List String) : Nat :=
  if fails then 0 else ledger.length

/-! ## Fetch step (`MusicDownloader._download_mp3_with_thumbnail`) -/

/-- Outcome of the `subprocess.run` call on yt-dlp. -/
inductive CmdOutcome where
  | success
  | nonzeroExit
  | timeoutExpired
  | otherError
deriving DecidableEq

/-- The filesystem/subprocess oracle for one fetch: whether the expected
mp3 path exists before the call, what the external command would do, and
whether the expected path exists after the command ran. -/
structure DownloadEnv where
  fsExistsBefore : Bool
  cmdOutcome : CmdOutcome
  fsExistsAfter : Bool
deriving DecidableEq

/-- The argument vector handed to `subprocess.run`. -/
def yt_dlp_cmd (output_template youtube_url : String) : List String :=
  ["yt-dlp", "-x", "--audio-format", "mp3", "--audio-quality", "0",
   "--embed-thumbnail", "--output", output_template, youtube_url]

/-- The `--output` template: the sanitized title when a truthy title was
given, else the raw video id, under the output directory. -/
def download_output_template (navidrome_dir youtube_id : String)
    (video_title : Option String) : String :=
  match video_title with
  | some t =>
    if t = "" then navidrome_dir ++ "/" ++ youtube_id ++ ".%(ext)s"
    else navidrome_dir ++ "/" ++ _sanitize_filename t ++ ".%(ext)s"
  | none => navidrome_dir ++ "/" ++ youtube_id ++ ".%(ext)s"

/-- `expected_mp3_path = Path(output_template.replace('%(ext)s', 'mp3'))`. -/
def expected_mp3_path (navidrome_dir youtube_id : String)
    (video_title : Option String) : String :=
  pyReplace (download_output_template navidrome_dir youtube_id video_title)
    "%(ext)s" "mp3"

/-- `MusicDownloader._download_mp3_with_thumbnail`.  Returns the resulting
mp3 path (or `none` on any failure) together with the list of external
command invocations performed. -/
def _download_mp3_with_thumbnail (dl : DownloadEnv)
    (navidrome_dir youtube_id : String) (video_title : Option String) :
    Option String × List (List String) :=
  let youtube_url := "https://www.youtube.com/watch?v=" ++ youtube_id
  let output_template := download_output_template navidrome_dir youtube_id video_title
  let expected := expected_mp3_path navidrome_dir youtube_id video_title
  if dl.fsExistsBefore then (some expected, [])
  else
    match dl.cmdOutcome with
    | CmdOutcome.success =>
      if dl.fsExistsAfter then (some expected, [yt_dlp_cmd output_template youtube_url])
      else (none, [yt_dlp_cmd output_template youtube_url])
    | _ => (none, [yt_dlp_cmd output_template youtube_url])

/-- The re-check `mp3_path.exists()` in `process_video`, evaluated against
the same (static) filesystem oracle: the expected path exists at that
point when it pre-existed, or when the command produced it. -/
def mp3_exists_now (dl : DownloadEnv) : Bool :=
  if dl.fsExistsBefore then true else dl.fsExistsAfter

/-- The fetch produced (or already had) the expected output file. -/
def fetch_succeeded (dl : DownloadEnv) : Bool :=
  dl.fsExistsBefore || (dl.cmdOutcome = CmdOutcome.success && dl.fsExistsAfter)

/-! ## The per-file pipeline (`MusicDownloader.process_video`) -/

/-- The oracles one `process_video` call consults: existence of the input
file, the computed content hash (`""` models a hash-computation failure,
as in `_get_file_hash`), sqlite failure switches for the two ledger
operations, the optional API client, the fetch oracle and the output
directory. -/
structure Env where
  fileExists : Bool
  hash : String
  containsFails : Bool
  markFails : Bool
  api : Option ApiModel
  dl : DownloadEnv
  navidrome_dir : String

/-- Result of a `process_video` call: the returned boolean, the ledger
after the call, and the external fetch commands that were started. -/
structure PVRes where
  ret : Bool
  ledger : List String
  cmds : List (List String)
deriving DecidableEq

/-- `MusicDownloader.process_video`. -/
def process_video (env : Env) (ledger : List String) (p : VPath) : PVRes :=
  if env.fileExists = false then ⟨false, ledger, []⟩
  else if _is_video_file p = false then ⟨false, ledger, []⟩
  else if env.hash = "" then ⟨false, ledger, []⟩
  else if is_mp3_downloaded env.containsFails ledger env.hash then ⟨false, ledger, []⟩
  else
    match env.api with
    | some api =>
      match _extract_video_id p with
      | none => ⟨false, ledger, []⟩
      | some video_id =>
        if is_in_music_playlist api video_id = false then ⟨false, ledger, []⟩
        else
          let video_title := fetchTitle (api.videoInfo video_id)
          let dres := _download_mp3_with_thumbnail env.dl env.navidrome_dir video_id video_title
          match dres.1 with
          | some _ =>
            if mp3_exists_now env.dl then
              ⟨true, mark_as_mp3_downloaded env.markFails ledger env.hash, dres.2⟩
            else ⟨false, ledger, dres.2⟩
          | none => ⟨false, ledger, dres.2⟩
    | none => ⟨false, ledger, []⟩

/-- The conjunction of the gates of `process_video` up to (and excluding)
the fetch call: the pass reaches `_download_mp3_with_thumbnail` exactly
when this is `true`. -/
def reaches_download (env : Env) (ledger : List String) (p : VPath) : Bool :=
  env.fileExists && _is_video_file p && !(env.hash == "") &&
  !(is_mp3_downloaded env.containsFails ledger env.hash) &&
  (match env.api with
   | none => false
   | some api =>
     match _extract_video_id p with
     | none => false
     | some video_id => is_in_music_playlist api video_id)

/-! ## Event handler (`VideoFileHandler._process_file`) -/

/-- How the `downloader.process_video(file_path)` call inside the `try`
block terminates: a normal return, or an exception. -/
inductive PvBehavior where
  | ret (b : Bool)
  | raise
deriving DecidableEq

/-- One complete run of `VideoFileHandler._process_file` for path `p`,
starting from in-flight set `S`: the early duplicate check, the settle
wait, the existence/size check, `processing.add`, the `try` block, and the
`finally: processing.discard`.  `present` is `file_path.exists()` after
the wait, `size` is `file_path.stat().st_size`.  Returns the in-flight set
on exit and whether `process_video` was called. -/
def process_file_run (S : List VPath) (p : VPath) (present : Bool)
    (size : Nat) (pv : PvBehavior) : List VPath × Bool :=
  if p ∈ S then (S, false)
  else if present = false || size = 0 then (S, false)
  else
    let S1 := if p ∈ S then S else p :: S
    match pv with
    | PvBehavior.ret _ => (S1.erase p, true)
    | PvBehavior.raise => (S1.erase p, true)

/-! Small-step model of two concurrent `_process_file` invocations for the
same path.  The shared state is whether the path is in `self.processing`
(a single-path view of the set); each thread walks the statements of
`_process_file` one atomic step at a time:

pc 0: `if file_path in self.processing: return`
pc 1: `time.sleep(2)`
pc 2: existence/size check (`ready` says whether the file passes it)
pc 3: `self.processing.add(file_path)`
pc 4: `self.downloader.process_video(file_path)`
pc 5: `finally: self.processing.discard(file_path)`
pc 6: returned. -/

/-- One handler invocation in the interleaved model: its program counter,
what its duplicate check observed (`none` before it ran), and how many
times it called `process_video`. -/
structure HThread where
  pc : Nat
  saw : Option Bool
  calls : Nat
deriving DecidableEq

/-- Shared in-flight flag plus the two handler invocations. -/
structure HState where
  inflight : Bool
  t1 : HThread
  t2 : HThread
deriving DecidableEq

/-- One atomic step of one handler invocation, given the current in-flight
flag; returns the new flag and thread state. -/
def hstep_thread (ready fl : Bool) (t : HThread) : Bool × HThread :=
  match t.pc with
  | 0 => if fl then (fl, { t with pc := 6, saw := some true })
         else (fl, { t with pc := 1, saw := some false })
  | 1 => (fl, { t with pc := 2 })
  | 2 => if ready then (fl, { t with pc := 3 }) else (fl, { t with pc := 6 })
  | 3 => (true, { t with pc := 4 })
  | 4 => (fl, { t with pc := 5, calls := t.calls + 1 })
  | 5 => (false, { t with pc := 6 })
  | _ => (fl, t)

/-- Scheduler step: run one atomic step of thread 1 (`tid = false`) or
thread 2 (`tid = true`). -/
def hstep (ready : Bool) (s : HState) (tid : Bool) : HState :=
  if tid then
    { inflight := (hstep_thread ready s.inflight s.t2).1,
      t1 := s.t1,
      t2 := (hstep_thread ready s.inflight s.t2).2 }
  else
    { inflight := (hstep_thread ready s.inflight s.t1).1,
      t1 := (hstep_thread ready s.inflight s.t1).2,
      t2 := s.t2 }

/-- Run a whole schedule (list of thread choices). -/
def hrun (ready : Bool) : List Bool → HState → HState
  | [], s => s
  | tid :: rest, s => hrun ready rest (hstep ready s tid)

/-- Both events just delivered: path not in the set, neither handler has
run its duplicate check. -/
def hinit : HState :=
  { inflight := false, t1 := ⟨0, none, 0⟩, t2 := ⟨0, none, 0⟩ }

/-- Per-thread invariant of the interleaved handler model: a thread whose
duplicate check saw the in-flight flag set is done without having called
`process_video`; a thread that has not yet checked has done nothing; a
thread calls `process_video` at most once, and only after passing pc 4. -/
def hInv (t : HThread) : Prop :=
  (t.saw = some true → t.pc = 6 ∧ t.calls = 0) ∧
  (t.saw = none → t.pc = 0 ∧ t.calls = 0) ∧
  (t.pc ≤ 4 → t.calls = 0) ∧
  t.calls ≤ 1

/-- Machine invariant: both threads satisfy `hInv`. -/
def machineInv (s : HState) : Prop := hInv s.t1 ∧ hInv s.t2

/-! ## Concrete fixtures used by the witness theorems -/

/-- A service with one non-matching playlist and one MUSIC playlist that
contains the id `abc123`. -/
def witnessApi : ApiModel :=
  { playlists := [⟨"OTHER", "p0"⟩, ⟨"MUSIC2025", "p1"⟩],
    playlistVideos := fun i => if i = "p1" then ["abc123"] else ["zzz"],
    videoInfo := fun _ => none }

/-- A freshly created eligible video file. -/
def witnessPath : VPath := ⟨"/youtube/chan", "abc123", ".mp4"⟩

/-- An environment whose expected output mp3 already exists before the
fetch is attempted. -/
def envPreexisting : Env :=
  { fileExists := true, hash := "h1", containsFails := false, markFails := false,
    api := some witnessApi,
    dl := { fsExistsBefore := true, cmdOutcome := CmdOutcome.success, fsExistsAfter := false },
    navidrome_dir := "/music" }

/-- An environment where the fetch command runs and produces the file. -/
def envFresh : Env :=
  { envPreexisting with
    dl := { fsExistsBefore := false, cmdOutcome := CmdOutcome.success, fsExistsAfter := true } }

/-! ## Helper lemmas about the fetch step -/

/-- When the fetch succeeds (pre-existing file or successful command with
output present), the fetch step returns the expected path, and the
re-check of its existence in `process_video` passes. -/
theorem download_some_of_success (dl : DownloadEnv) (d i : String)
    (t : Option String) (hf : fetch_succeeded dl = true) :
    (_download_mp3_with_thumbnail dl d i t).1 = some (expected_mp3_path d i t)
    ∧ mp3_exists_now dl = true := by
  rcases dl with ⟨b, c, a⟩
  cases b <;> cases a <;> cases c <;>
    simp_all [_download_mp3_with_thumbnail, mp3_exists_now, fetch_succeeded]

/-- When the fetch fails (timeout, non-zero exit, other error, or a
successful exit without the output file), the fetch step returns `none`. -/
theorem download_none_of_failure (dl : DownloadEnv) (d i : String)
    (t : Option String) (hf : fetch_succeeded dl = false) :
    (_download_mp3_with_thumbnail dl d i t).1 = none := by
  rcases dl with ⟨b, c, a⟩
  cases b <;> cases a <;> cases c <;>
    simp_all [_download_mp3_with_thumbnail, fetch_succeeded]

/-- A pipeline pass that fails one of the gates before the fetch call
returns `False` having changed nothing and started no subprocess. -/
theorem process_video_of_not_reach (env : Env) (ledger : List String)
    (p : VPath) (hr : reaches_download env ledger p = false) :
    process_video env ledger p = ⟨false, ledger, []⟩ := by
  unfold process_video
  unfold reaches_download at hr
  split
  · rfl
  split
  · rfl
  split
  · rfl
  split
  · rfl
  split
  · rename_i api heq
    split
    · rfl
    · rename_i video_id hev
      split
      · rfl
      · exfalso
        simp_all
  · rfl

/-! ## Claim theorems -/

/-- Claim C4 (confirmed): `mark` is idempotent — a second `mark` of the
same content hash after a successful one leaves the ledger contents and
the count unchanged. -/
theorem mark_as_mp3_downloaded_idempotent (ledger : List String) (file_hash : String) :
    mark_as_mp3_downloaded false (mark_as_mp3_downloaded false ledger file_hash) file_hash
      = mark_as_mp3_downloaded false ledger file_hash
    ∧ _get_mp3_downloaded_count false
        (mark_as_mp3_downloaded false (mark_as_mp3_downloaded false ledger file_hash) file_hash)
      = _get_mp3_downloaded_count false (mark_as_mp3_downloaded false ledger file_hash) := by
  have h : mark_as_mp3_downloaded false (mark_as_mp3_downloaded false ledger file_hash) file_hash
      = mark_as_mp3_downloaded false ledger file_hash := by
    by_cases hm : file_hash ∈ ledger <;>
      simp [mark_as_mp3_downloaded, markAttempt, hm]
  exact ⟨h, by rw [h]⟩

/-- Claim C7 (confirmed): when the expected output path already exists
before `fetch` is called, no external command is invoked and the existing
path is returned. -/
theorem fetch_short_circuit (dl : DownloadEnv) (navidrome_dir youtube_id : String)
    (video_title : Option String) (h : dl.fsExistsBefore = true) :
    _download_mp3_with_thumbnail dl navidrome_dir youtube_id video_title
      = (some (expected_mp3_path navidrome_dir youtube_id video_title), []) := by
  simp [_download_mp3_with_thumbnail, h]

/-- Witness for C7 at a concrete input. -/
theorem fetch_short_circuit_witness :
    (⟨true, CmdOutcome.success, false⟩ : DownloadEnv).fsExistsBefore = true
    ∧ _download_mp3_with_thumbnail ⟨true, CmdOutcome.success, false⟩ "/music" "abc123" none
        = (some (expected_mp3_path "/music" "abc123" none), [])
    ∧ expected_mp3_path "/music" "abc123" none = "/music/abc123.mp3" :=
  ⟨rfl, fetch_short_circuit ⟨true, CmdOutcome.success, false⟩ "/music" "abc123" none rfl,
    by decide⟩

/-- Claim C2 (confirmed): when `contains` answers `true` for the file's
hash, `process_video` returns without starting any fetch subprocess and
without any other effect on the ledger. -/
theorem process_video_skips_downloaded (env : Env) (ledger : List String) (p : VPath)
    (h : is_mp3_downloaded env.containsFails ledger env.hash = true) :
    (process_video env ledger p).cmds = [] ∧ (process_video env ledger p).ledger = ledger := by
  have he : process_video env ledger p = ⟨false, ledger, []⟩ := by
    unfold process_video
    simp [h, ite_self]
  rw [he]
  exact ⟨rfl, rfl⟩

/-- Witness for C2 at a concrete input. -/
theorem process_video_skips_downloaded_witness :
    is_mp3_downloaded envFresh.containsFails ["h1"] envFresh.hash = true
    ∧ (process_video envFresh ["h1"] witnessPath).cmds = []
    ∧ (process_video envFresh ["h1"] witnessPath).ledger = ["h1"] :=
  ⟨by decide, process_video_skips_downloaded envFresh ["h1"] witnessPath (by decide)⟩

/-- Claim C9 (confirmed): whichever way one handler invocation terminates
(pipeline return, not-ready rejection, or an exception inside
`process_video`), the in-flight set on exit equals the set on entry, so
the path it registered is released. -/
theorem handler_always_releases (S : List VPath) (p : VPath) (present : Bool)
    (size : Nat) (pv : PvBehavior) (h : p ∉ S) :
    (process_file_run S p present size pv).1 = S
    ∧ p ∉ (process_file_run S p present size pv).1 := by
  have he : (process_file_run S p present size pv).1 = S := by
    unfold process_file_run
    simp only [h, if_neg, if_false]
    split
    · rfl
    · cases pv <;> simp [h, List.erase_cons_head]
  exact ⟨he, by rw [he]; exact h⟩

/-- Witness for C9 at a concrete input: the handler raises, the set is
still restored. -/
theorem handler_always_releases_witness :
    witnessPath ∉ ([] : List VPath)
    ∧ (process_file_run [] witnessPath true 10 PvBehavior.raise).1 = []
    ∧ witnessPath ∉ (process_file_run [] witnessPath true 10 PvBehavior.raise).1 :=
  ⟨by decide, handler_always_releases [] witnessPath true 10 PvBehavior.raise (by decide)⟩

/-- Claim C10 (confirmed): a storage failure inside `mark` is swallowed
(the ledger is unchanged and nothing is raised), and a pass whose fetch
succeeded still reports overall success even though the hash was never
recorded. -/
theorem mark_failure_swallowed (env : Env) (ledger : List String) (p : VPath)
    (hm : env.markFails = true)
    (hr : reaches_download env ledger p = true)
    (hf : fetch_succeeded env.dl = true) :
    mark_as_mp3_downloaded true ledger env.hash = ledger
    ∧ (process_video env ledger p).ret = true
    ∧ (process_video env ledger p).ledger = ledger := by
  have hmark : mark_as_mp3_downloaded true ledger env.hash = ledger := by
    simp [mark_as_mp3_downloaded, markAttempt]
  refine ⟨hmark, ?_⟩
  unfold reaches_download at hr
  rcases henv : env.api with _ | api <;> rw [henv] at hr
  · simp at hr
  rcases hev : _extract_video_id p with _ | video_id <;> rw [hev] at hr
  · simp at hr
  simp only [Bool.and_eq_true, beq_eq_false_iff_ne, ne_eq, Bool.not_eq_true'] at hr
  obtain ⟨⟨⟨⟨hfe, hvf⟩, hh⟩, hc⟩, hmu⟩ := hr
  have hd := download_some_of_success env.dl env.navidrome_dir video_id
    (fetchTitle (api.videoInfo video_id)) hf
  unfold process_video
  rw [henv, hev]
  simp [hfe, hvf, hh, hc, hmu, hd.1, hd.2, hm, hmark]

/-- Witness for C10 at a concrete input. -/
theorem mark_failure_swallowed_witness :
    ({ envFresh with markFails := true } : Env).markFails = true
    ∧ reaches_download { envFresh with markFails := true } [] witnessPath = true
    ∧ fetch_succeeded ({ envFresh with markFails := true } : Env).dl = true
    ∧ (mark_as_mp3_downloaded true [] ({ envFresh with markFails := true } : Env).hash = []
       ∧ (process_video { envFresh with markFails := true } [] witnessPath).ret = true
       ∧ (process_video { envFresh with markFails := true } [] witnessPath).ledger = []) :=
  ⟨rfl, by decide, rfl,
    mark_failure_swallowed { envFresh with markFails := true } [] witnessPath rfl
      (by decide) rfl⟩

/-- Counterexample to claim C3 as stated: with the expected output file
already present, the pass marks the content hash in the ledger although
the external command was never invoked — so "marked iff the external
command exited successfully and the output exists afterward" fails. -/
theorem ledger_marked_without_command :
    (process_video envPreexisting [] witnessPath).ledger = ["h1"]
    ∧ (process_video envPreexisting [] witnessPath).cmds = [] := by decide

/-- Claim C3 (amended): the ledger after a pass is the marked ledger
exactly when the pass reaches the fetch step and the fetch yields the
expected output file (pre-existing file, or successful command with the
output present); in every other case — timeout, non-zero exit, other
error, or success reported without an output file — the ledger is
unchanged. -/
theorem ledger_marked_iff_fetch_succeeded (env : Env) (ledger : List String)
    (p : VPath) (hm : env.markFails = false) :
    (process_video env ledger p).ledger =
      if (reaches_download env ledger p && fetch_succeeded env.dl) = true
      then mark_as_mp3_downloaded false ledger env.hash
      else ledger := by
  cases hr : reaches_download env ledger p with
  | false =>
    rw [process_video_of_not_reach env ledger p hr]
    simp
  | true =>
    unfold reaches_download at hr
    rcases henv : env.api with _ | api <;> rw [henv] at hr
    · simp at hr
    rcases hev : _extract_video_id p with _ | video_id <;> rw [hev] at hr
    · simp at hr
    simp only [Bool.and_eq_true, beq_eq_false_iff_ne, ne_eq, Bool.not_eq_true'] at hr
    obtain ⟨⟨⟨⟨hfe, hvf⟩, hh⟩, hc⟩, hmu⟩ := hr
    cases hf : fetch_succeeded env.dl with
    | false =>
      have hd := download_none_of_failure env.dl env.navidrome_dir video_id
        (fetchTitle (api.videoInfo video_id)) hf
      unfold process_video
      rw [henv, hev]
      simp [hfe, hvf, hh, hc, hmu, hd]
    | true =>
      have hd := download_some_of_success env.dl env.navidrome_dir video_id
        (fetchTitle (api.videoInfo video_id)) hf
      unfold process_video
      rw [henv, hev]
      simp [hfe, hvf, hh, hc, hmu, hd.1, hd.2, hm]

/-- Witness for the amended C3 at a concrete input: a fresh successful
fetch marks the hash; the same input with a failing command leaves the
ledger unchanged. -/
theorem ledger_marked_iff_fetch_succeeded_witness :
    envFresh.markFails = false
    ∧ (process_video envFresh [] witnessPath).ledger
        = (if (reaches_download envFresh [] witnessPath && fetch_succeeded envFresh.dl) = true
           then mark_as_mp3_downloaded false [] envFresh.hash
           else [])
    ∧ (process_video envFresh [] witnessPath).ledger = ["h1"]
    ∧ (process_video { envFresh with dl := ⟨false, CmdOutcome.timeoutExpired, false⟩ }
        [] witnessPath).ledger = [] :=
  ⟨rfl, ledger_marked_iff_fetch_succeeded envFresh [] witnessPath rfl,
    by decide, by decide⟩

/-! ## Claim C1: the in-flight guard under interleaving -/

/-- Counterexample to claim C1 as stated: a second creation event for the
same path that arrives while the first is still being handled (here:
while the first is in its settle wait — after one step the first handler
is not yet done) is not dropped, and `process_video` runs twice. -/
theorem duplicate_events_run_twice :
    ((hrun true [false, true, false, true, false, true, false, true, false, true, false, true]
        hinit).t1.calls
      + (hrun true [false, true, false, true, false, true, false, true, false, true, false, true]
          hinit).t2.calls = 2)
    ∧ (hrun true [false] hinit).t1.pc ≠ 6 := by decide

/-- One handler step preserves the per-thread invariant. -/
theorem hstep_thread_inv (ready fl : Bool) (t : HThread) (h : hInv t) :
    hInv (hstep_thread ready fl t).2 := by
  obtain ⟨h1, h2, h3, h4⟩ := h
  rcases t with ⟨pc, saw, calls⟩
  simp only [hInv] at *
  rcases pc with _ | _ | _ | _ | _ | _ | pc <;> cases fl <;> cases ready <;>
    simp_all [hstep_thread]

/-- One scheduler step preserves the machine invariant. -/
theorem hstep_inv (ready : Bool) (s : HState) (tid : Bool) (h : machineInv s) :
    machineInv (hstep ready s tid) := by
  obtain ⟨h1, h2⟩ := h
  cases tid
  · exact ⟨hstep_thread_inv _ _ _ h1, h2⟩
  · exact ⟨h1, hstep_thread_inv _ _ _ h2⟩

/-- Every run from the initial state satisfies the machine invariant. -/
theorem hrun_inv (ready : Bool) :
    ∀ (sched : List Bool) (s : HState), machineInv s → machineInv (hrun ready sched s)
  | [], _, h => h
  | tid :: rest, s, h => hrun_inv ready rest _ (hstep_inv ready s tid h)

/-- Claim C1 (amended): a second handler invocation is dropped exactly
when its duplicate check runs while the path is in the in-flight set —
that is, after the first invocation's `processing.add` and before its
`processing.discard`; in that case the second performs no `process_video`
call and at most one pipeline execution results.  (A second event checked
during the first's settle wait is not dropped — the in-flight set is only
updated after the wait — as the counterexample run shows.) -/
theorem second_event_dropped_only_when_inflight (sched : List Bool) (ready : Bool)
    (h : (hrun ready sched hinit).t2.saw = some true) :
    (hrun ready sched hinit).t2.calls = 0
    ∧ (hrun ready sched hinit).t1.calls + (hrun ready sched hinit).t2.calls ≤ 1 := by
  have hi := hrun_inv ready sched hinit (by simp [machineInv, hInv, hinit])
  obtain ⟨hi1, hi2⟩ := hi
  have h2 := hi2.1 h
  have h1 := hi1.2.2.2
  exact ⟨h2.2, by omega⟩

/-- Witness for the amended C1: a schedule in which the second event's
check runs while the first holds the path in-flight; the second is
dropped and exactly one `process_video` call happens. -/
theorem second_event_dropped_witness :
    (hrun true [false, false, false, false, true, false, false] hinit).t2.saw = some true
    ∧ ((hrun true [false, false, false, false, true, false, false] hinit).t2.calls = 0
       ∧ (hrun true [false, false, false, false, true, false, false] hinit).t1.calls
          + (hrun true [false, false, false, false, true, false, false] hinit).t2.calls ≤ 1)
    ∧ (hrun true [false, false, false, false, true, false, false] hinit).t1.calls = 1 :=
  ⟨by decide,
    second_event_dropped_only_when_inflight [false, false, false, false, true, false, false]
      true (by decide),
    by decide⟩

/-! ## Claim C5: the playlist membership check -/

/-- Correctness of the playlist scan on an arbitrary playlist list: the
result is `true` iff some MUSIC-named playlist contains the id; every
member-list fetch except possibly the last one missed, and on a `true`
result the last fetched playlist contains the id (the scan stops there). -/
theorem is_in_music_playlist_aux_correct (api : ApiModel) (video_id : String) :
    ∀ (l : List Playlist), (∀ pl ∈ l, pl.playlist_id ≠ "") →
      ((is_in_music_playlist_aux api video_id l).1 = true ↔
        ∃ pl ∈ l, pyStartsWith (pyUpper pl.playlist_name) "MUSIC" = true
          ∧ video_id ∈ api.playlistVideos pl.playlist_id)
      ∧ (∀ q ∈ (is_in_music_playlist_aux api video_id l).2.dropLast,
          video_id ∉ api.playlistVideos q)
      ∧ ((is_in_music_playlist_aux api video_id l).1 = true →
          ∃ q, (is_in_music_playlist_aux api video_id l).2.getLast? = some q
            ∧ video_id ∈ api.playlistVideos q) := by
  intro l
  induction l with
  | nil => intro _; simp [is_in_music_playlist_aux]
  | cons pl rest ih =>
    intro hids
    have hpl : pl.playlist_id ≠ "" := hids pl (List.mem_cons_self pl rest)
    have hrest := ih fun q hq => hids q (List.mem_cons_of_mem pl hq)
    by_cases hname : pyStartsWith (pyUpper pl.playlist_name) "MUSIC" = true
    · by_cases hmem : video_id ∈ api.playlistVideos pl.playlist_id
      · refine ⟨?_, ?_, ?_⟩ <;>
          simp only [is_in_music_playlist_aux, hname, if_pos, hpl, if_neg, hmem, if_true,
            reduceIte]
        · exact iff_of_true trivial ⟨pl, List.mem_cons_self pl rest, hname, hmem⟩
        · simp
        · intro _
          exact ⟨pl.playlist_id, by simp, hmem⟩
      · have hres : is_in_music_playlist_aux api video_id (pl :: rest)
            = ((is_in_music_playlist_aux api video_id rest).1,
               pl.playlist_id :: (is_in_music_playlist_aux api video_id rest).2) := by
          simp [is_in_music_playlist_aux, hname, hpl, hmem]
        refine ⟨?_, ?_, ?_⟩ <;> rw [hres]
        · rw [hrest.1]
          constructor
          · rintro ⟨pl', h1, h2, h3⟩
            exact ⟨pl', List.mem_cons_of_mem pl h1, h2, h3⟩
          · rintro ⟨pl', h1, h2, h3⟩
            rcases List.mem_cons.mp h1 with h1 | h1
            · exact absurd (h1 ▸ h3) hmem
            · exact ⟨pl', h1, h2, h3⟩
        · cases hr2 : (is_in_music_playlist_aux api video_id rest).2 with
          | nil => simp [List.dropLast]
          | cons b bs =>
            intro q hq
            rcases List.mem_cons.mp (by simpa [List.dropLast] using hq) with hq | hq
            · exact hq ▸ hmem
            · exact hrest.2.1 q (by rw [hr2]; simpa [List.dropLast] using hq)
        · intro ht
          obtain ⟨q, hq1, hq2⟩ := hrest.2.2 ht
          cases hr2 : (is_in_music_playlist_aux api video_id rest).2 with
          | nil => rw [hr2] at hq1; exact absurd hq1 (by simp)
          | cons b bs =>
            refine ⟨q, ?_, hq2⟩
            rw [hr2] at hq1
            simpa [List.getLast?_cons_cons] using hq1
    · have hres : is_in_music_playlist_aux api video_id (pl :: rest)
          = is_in_music_playlist_aux api video_id rest := by
        simp [is_in_music_playlist_aux, hname]
      refine ⟨?_, ?_, ?_⟩ <;> rw [hres]
      · rw [hrest.1]
        constructor
        · rintro ⟨pl', h1, h2, h3⟩
          exact ⟨pl', List.mem_cons_of_mem pl h1, h2, h3⟩
        · rintro ⟨pl', h1, h2, h3⟩
          rcases List.mem_cons.mp h1 with h1 | h1
          · exact absurd (h1 ▸ h2) hname
          · exact ⟨pl', h1, h2, h3⟩
      · exact hrest.2.1
      · exact hrest.2.2

/-- Claim C5 (confirmed): `is_in_music_playlist` answers `true` iff the id
appears among the member entries of some playlist whose name,
case-insensitively, starts with `MUSIC` (given that the listed playlists
carry ids); and the scan short-circuits — every member list it fetched
except the last does not contain the id, and on a `true` answer the last
fetched one does. -/
theorem is_in_music_playlist_correct (api : ApiModel) (video_id : String)
    (hids : ∀ pl ∈ api.playlists, pl.playlist_id ≠ "") :
    (is_in_music_playlist api video_id = true ↔
      ∃ pl ∈ api.playlists, pyStartsWith (pyUpper pl.playlist_name) "MUSIC" = true
        ∧ video_id ∈ api.playlistVideos pl.playlist_id)
    ∧ (∀ q ∈ (is_in_music_playlist_aux api video_id api.playlists).2.dropLast,
        video_id ∉ api.playlistVideos q)
    ∧ (is_in_music_playlist api video_id = true →
        ∃ q, (is_in_music_playlist_aux api video_id api.playlists).2.getLast? = some q
          ∧ video_id ∈ api.playlistVideos q) :=
  is_in_music_playlist_aux_correct api video_id api.playlists hids

/-- Witness for C5: the spec's own example — `MUSIC2025` contains
`abc123`, `OTHER` does not qualify, `xyz999` is nowhere. -/
theorem is_in_music_playlist_correct_witness :
    (∀ pl ∈ witnessApi.playlists, pl.playlist_id ≠ "")
    ∧ is_in_music_playlist witnessApi "abc123" = true
    ∧ is_in_music_playlist witnessApi "xyz999" = false :=
  ⟨by decide,
    (is_in_music_playlist_correct witnessApi "abc123" (by decide)).1.mpr
      ⟨⟨"MUSIC2025", "p1"⟩, by decide, by decide, by decide⟩,
    by decide⟩

/-! ## Claim C8: the title lookup -/

/-- Counterexample to claim C8 as stated: a present display-title field
whose value is the empty string is not returned — the alternate field's
value wins (Python's `or` tests truthiness, not presence). -/
theorem present_empty_title_skipped :
    fetchTitle (some ⟨some "", some "Alt"⟩) = some "Alt"
    ∧ (some "Alt" : Option String) ≠ some "" := by decide

/-- Claim C8 (amended): the title extraction returns the display title
field when it is present and nonempty; when the display title is absent
or empty it returns the alternate field's value (which may itself be
empty or absent); and when the metadata lookup failed (returned nothing)
the result is none, with no error propagating. -/
theorem fetchTitle_characterization (i : VideoInfo) (t : String) :
    fetchTitle none = none
    ∧ (i.title = some t → t ≠ "" → fetchTitle (some i) = some t)
    ∧ ((i.title = none ∨ i.title = some "") → fetchTitle (some i) = i.video_title) := by
  refine ⟨rfl, ?_, ?_⟩
  · intro h1 h2
    simp [fetchTitle, pyOrStr, h1, h2]
  · rintro (h | h) <;> simp [fetchTitle, pyOrStr, h]

/-- Witness for the amended C8 at concrete inputs. -/
theorem fetchTitle_characterization_witness :
    fetchTitle (some ⟨some "Song Title", some "Alt"⟩) = some "Song Title"
    ∧ fetchTitle (some ⟨none, some "Alt"⟩) = some "Alt" :=
  ⟨(fetchTitle_characterization ⟨some "Song Title", some "Alt"⟩ "Song Title").2.1 rfl
      (by decide),
    (fetchTitle_characterization ⟨none, some "Alt"⟩ "x").2.2 (Or.inl rfl)⟩

/-! ## Claim C6: the filename sanitizer -/

/-- The head of a `dropWhile` result does not satisfy the predicate. -/
theorem head_not_of_dropWhile {α : Type} {p : α → Bool} {l : List α} {c : α}
    {t : List α} (h : l.dropWhile p = c :: t) : p c = false := by
  have hx := List.head?_dropWhile_not p l
  rw [h] at hx
  simpa using hx

/-- `dropWhile` is a `drop` of the original list. -/
theorem dropWhile_eq_drop {α : Type} (p : α → Bool) (l : List α) :
    l.dropWhile p = l.drop (l.takeWhile p).length := by
  induction l with
  | nil => rfl
  | cons a t ih =>
    by_cases h : p a
    · simp [List.dropWhile_cons, List.takeWhile_cons, h, ih]
    · simp [List.dropWhile_cons, List.takeWhile_cons, h]

/-- Dropping a prefix does not change the last element, as long as
something is left. -/
theorem getLast?_drop_ne_nil {α : Type} (l : List α) (n : Nat)
    (h : l.drop n ≠ []) : (l.drop n).getLast? = l.getLast? := by
  induction l generalizing n with
  | nil => simp at h
  | cons a t ih =>
    cases n with
    | zero => rfl
    | succ n =>
      have h' : t.drop n ≠ [] := by simpa using h
      rw [List.drop_succ_cons, ih n h']
      cases t with
      | nil => simp at h'
      | cons b bs => simp

/-- The first character of a both-ends strip does not satisfy the strip
predicate. -/
theorem head_not_strip_of_stripDots {l : List Char} {c : Char}
    (h : (stripDots l).head? = some c) : strip_char c = false := by
  unfold stripDots at h
  rw [List.head?_reverse] at h
  rw [dropWhile_eq_drop strip_char (l.dropWhile strip_char).reverse] at h
  have hne : (l.dropWhile strip_char).reverse.drop
      (((l.dropWhile strip_char).reverse.takeWhile strip_char).length) ≠ [] := by
    intro he
    rw [he] at h
    simp at h
  rw [getLast?_drop_ne_nil _ _ hne] at h
  rw [List.getLast?_reverse] at h
  cases hm : l.dropWhile strip_char with
  | nil => rw [hm] at h; simp at h
  | cons d t =>
    rw [hm] at h
    simp only [List.head?_cons, Option.some.injEq] at h
    rw [← h]
    exact head_not_of_dropWhile hm

/-- The last character of a both-ends strip does not satisfy the strip
predicate. -/
theorem getLast_not_strip_of_stripDots {l : List Char} {c : Char}
    (h : (stripDots l).getLast? = some c) : strip_char c = false := by
  unfold stripDots at h
  rw [List.getLast?_reverse] at h
  cases hm : (l.dropWhile strip_char).reverse.dropWhile strip_char with
  | nil => rw [hm] at h; simp at h
  | cons d t =>
    rw [hm] at h
    simp only [List.head?_cons, Option.some.injEq] at h
    rw [← h]
    exact head_not_of_dropWhile hm

/-- Stripping only removes characters. -/
theorem mem_of_mem_stripDots {c : Char} {l : List Char}
    (h : c ∈ stripDots l) : c ∈ l := by
  unfold stripDots at h
  rw [List.mem_reverse] at h
  have h2 : c ∈ (l.dropWhile strip_char).reverse :=
    List.Sublist.mem h (List.dropWhile_sublist strip_char)
  rw [List.mem_reverse] at h2
  exact List.Sublist.mem h2 (List.dropWhile_sublist strip_char)

/-- The substitution step only emits legal characters. -/
theorem subst_all_legal {l : List Char} {c : Char}
    (h : c ∈ substituteInvalid l) : invalid_char c = false := by
  rcases List.mem_map.mp h with ⟨d, _, he⟩
  by_cases hd : invalid_char d = true
  · rw [← he]
    simp [hd]
    decide
  · rw [← he]
    simp only [Bool.not_eq_true] at hd
    simp [hd]

/-- An all-underscore list survives the strip untouched. -/
theorem dropWhile_strip_underscore (n : Nat) :
    List.dropWhile strip_char (List.replicate n '_') = List.replicate n '_' := by
  cases n with
  | zero => rfl
  | succ n =>
    rw [List.replicate_succ]
    rw [List.dropWhile_cons_of_neg]
    decide

/-- Substituting an all-illegal list yields all underscores, which the
strip leaves untouched. -/
theorem all_invalid_strip (l : List Char) (h : ∀ c ∈ l, invalid_char c = true) :
    stripDots (substituteInvalid l) = List.replicate l.length '_' := by
  have hsub : substituteInvalid l = List.replicate l.length '_' := by
    rw [List.eq_replicate_iff]
    refine ⟨by simp [substituteInvalid], ?_⟩
    intro b hb
    rcases List.mem_map.mp hb with ⟨d, hd, he⟩
    rw [← he]
    simp [h d hd]
  rw [hsub]
  unfold stripDots
  rw [dropWhile_strip_underscore, List.reverse_replicate, dropWhile_strip_underscore,
    List.reverse_replicate]

/-- `take` of a replicate is a replicate. -/
theorem take_replicate_min {α : Type} (n m : Nat) (c : α) :
    (List.replicate m c).take n = List.replicate (min n m) c := by
  induction n generalizing m with
  | zero => simp
  | succ n ih =>
    cases m with
    | zero => simp
    | succ m =>
      rw [List.replicate_succ, List.take_succ_cons, ih, Nat.succ_min_succ,
        List.replicate_succ]

/-- Truncating a replicate. -/
theorem truncate200_replicate (n : Nat) (c : Char) :
    truncate200 (List.replicate n c) = List.replicate (min n 200) c := by
  unfold truncate200
  by_cases h : 200 < n
  · rw [if_pos (by simpa using h), take_replicate_min]
    congr 1
    omega
  · rw [if_neg (by simpa using h)]
    congr 1
    omega

/-- The head survives a positive `take`. -/
theorem head?_take_pos {α : Type} (l : List α) (n : Nat) (hn : 0 < n) :
    (l.take n).head? = l.head? := by
  cases l with
  | nil => simp
  | cons a t =>
    cases n with
    | zero => omega
    | succ n => simp

set_option maxRecDepth 8000 in
/-- Counterexample to claim C6 as stated: truncation runs after trimming,
so a 202-character title with a dot in position 200 sanitizes to a name
with a trailing dot; and a title of only illegal characters sanitizes to
underscores (the characters are replaced, not removed), not to the
fallback placeholder. -/
theorem sanitize_trailing_dot_and_underscores :
    (_sanitize_filename (String.mk (List.replicate 199 'a' ++ ['.', ' ', 'b']))).data.getLast?
      = some '.'
    ∧ _sanitize_filename "???" = "___"
    ∧ ("___" : String) ≠ "untitled" := by decide

/-- Claim C6 (amended): the sanitized name is never empty, has at most 200
characters, contains only legal characters, and never starts with a space
or dot; it also never ends with a space or dot **provided no truncation
happened** (the cap is applied after trimming, so cutting at character
200 can reintroduce a trailing space or dot); a title consisting only of
illegal characters sanitizes to underscores of the same (capped) length,
not to the placeholder; the placeholder `untitled` is produced exactly
when the substituted-and-trimmed title is empty. -/
theorem sanitize_filename_props (s : String) :
    (_sanitize_filename s).data ≠ []
    ∧ (_sanitize_filename s).data.length ≤ 200
    ∧ (∀ c ∈ (_sanitize_filename s).data, invalid_char c = false)
    ∧ (∀ c, (_sanitize_filename s).data.head? = some c → strip_char c = false)
    ∧ ((stripDots (substituteInvalid s.data)).length ≤ 200 →
        ∀ c, (_sanitize_filename s).data.getLast? = some c → strip_char c = false)
    ∧ ((∀ c ∈ s.data, invalid_char c = true) → s.data ≠ [] →
        (∀ c ∈ (_sanitize_filename s).data, c = '_')
        ∧ (_sanitize_filename s).data.length = min s.data.length 200)
    ∧ (stripDots (substituteInvalid s.data) = [] → _sanitize_filename s = "untitled") := by
  have hdata : (_sanitize_filename s).data
      = (if truncate200 (stripDots (substituteInvalid s.data)) = []
         then "untitled".data
         else truncate200 (stripDots (substituteInvalid s.data))) := rfl
  by_cases hE : truncate200 (stripDots (substituteInvalid s.data)) = []
  · rw [hdata, if_pos hE] at *
    refine ⟨by decide, by decide, by decide, ?_, ?_, ?_, ?_⟩
    · intro c h
      have hc : c = 'u' := by
        have : ("untitled".data).head? = some 'u' := rfl
        rw [this] at h
        exact (Option.some.injEq _ _ ▸ h.symm)
      rw [hc]
      decide
    · intro _ c h
      have hc : c = 'd' := by
        have : ("untitled".data).getLast? = some 'd' := by decide
        rw [this] at h
        exact (Option.some.injEq _ _ ▸ h.symm)
      rw [hc]
      decide
    · intro hall hne
      exfalso
      rw [all_invalid_strip s.data hall, truncate200_replicate] at hE
      rw [List.replicate_eq_nil_iff] at hE
      have : s.data.length ≠ 0 := fun h0 => hne (List.eq_nil_of_length_eq_zero h0)
      omega
    · intro _
      show String.mk (sanitizeChars s.data) = "untitled"
      have hc : sanitizeChars s.data = "untitled".data := by
        show (if truncate200 (stripDots (substituteInvalid s.data)) = []
              then "untitled".data
              else truncate200 (stripDots (substituteInvalid s.data))) = "untitled".data
        rw [if_pos hE]
      rw [hc]
  · rw [hdata, if_neg hE] at *
    have hmem : ∀ c ∈ truncate200 (stripDots (substituteInvalid s.data)),
        c ∈ stripDots (substituteInvalid s.data) := by
      intro c hc
      unfold truncate200 at hc
      by_cases h2 : 200 < (stripDots (substituteInvalid s.data)).length
      · rw [if_pos h2] at hc
        exact List.Sublist.mem hc (List.take_sublist 200 _)
      · rwa [if_neg h2] at hc
    refine ⟨hE, ?_, ?_, ?_, ?_, ?_, ?_⟩
    · unfold truncate200
      by_cases h2 : 200 < (stripDots (substituteInvalid s.data)).length
      · rw [if_pos h2]
        simp
      · rw [if_neg h2]
        omega
    · intro c hc
      exact subst_all_legal (mem_of_mem_stripDots (hmem c hc))
    · intro c h
      unfold truncate200 at h
      by_cases h2 : 200 < (stripDots (substituteInvalid s.data)).length
      · rw [if_pos h2, head?_take_pos _ 200 (by omega)] at h
        exact head_not_strip_of_stripDots h
      · rw [if_neg h2] at h
        exact head_not_strip_of_stripDots h
    · intro hlen c h
      have h2 : ¬ 200 < (stripDots (substituteInvalid s.data)).length := by omega
      unfold truncate200 at h
      rw [if_neg h2] at h
      exact getLast_not_strip_of_stripDots h
    · intro hall hne
      rw [all_invalid_strip s.data hall, truncate200_replicate]
      constructor
      · intro c hc
        exact List.eq_of_mem_replicate hc
      · simp
    · intro hst
      exfalso
      apply hE
      rw [hst]
      rfl

/-- Witness for the amended C6: each conditional clause discharged at a
concrete title. -/
theorem sanitize_filename_props_witness :
    strip_char 'a' = false
    ∧ strip_char 'b' = false
    ∧ (∀ c ∈ (_sanitize_filename "???").data, c = '_')
    ∧ (_sanitize_filename "???").data.length = min ("???" : String).data.length 200
    ∧ _sanitize_filename " .. " = "untitled" :=
  ⟨(sanitize_filename_props "a?b").2.2.2.1 'a' (by decide),
    (sanitize_filename_props "ab").2.2.2.2.1 (by decide) 'b' (by decide),
    ((sanitize_filename_props "???").2.2.2.2.2.1 (by decide) (by decide)).1,
    ((sanitize_filename_props "???").2.2.2.2.2.1 (by decide) (by decide)).2,
    (sanitize_filename_props " .. ").2.2.2.2.2.2 (by decide)⟩

end TaToMusic
